import Mathlib

/-!
Verification of the sqlcipher-bench benchmark driver (src/bench.h,
src/benchmark.c, src/main.c), shallowly embedded in Lean 4.

The embedding follows the C source: machine ints become `Int`/`Nat` (the
quantities involved stay far below 2^31, so no wraparound modelling is
needed), the mutable driver state becomes explicit state passing, and the
side-effecting workload execution becomes an event trace.  The functions
implemented in `random.c` and `util.c` are declared in `bench.h` but their
bodies are not part of the repository snapshot; those are modelled from the
specification and marked as such in their doc comments.
-/

/-- Key order, from `enum Order` in benchmark.c (lines 7-10). -/
inductive Order where
  | SEQUENTIAL : Order
  | RANDOM : Order
deriving DecidableEq, Repr

/-- Modelled from the spec: `rand_next` lives in random.c, which is absent
from src/ (declared in bench.h line 103).  Spec 4.1: "advances state using a
fixed multiplicative linear-congruential recurrence modulo 2^31-1 and returns
the new 31-bit value"; the multiplier is the standard Lehmer/LevelDB constant
16807. -/
def rand_next (s : Nat) : Nat := s * 16807 % 2147483647

/-- Modelled from the spec: `rand_init` lives in random.c, absent from src/
(declared in bench.h line 102).  Spec 4.1: "seed(s) initializes internal
state to s normalized into the open range (0, 2^31-1] (a zero or negative
seed is remapped, never left at the absorbing zero state)".  The seed is
masked to 31 bits; the excluded values 0 and 2^31-1 are remapped to 1. -/
def rand_init (s : Nat) : Nat :=
  let t := s % 2147483648
  if t = 0 ∨ t = 2147483647 then 1 else t

/-- `k`-fold iteration of the PRNG step starting from state `s`; the
`i`-th value produced by repeated `rand_next` calls is `rand_iter s (i+1)`. -/
def rand_iter (s : Nat) : Nat → Nat
  | 0 => s
  | k + 1 => rand_next (rand_iter s k)

/-- The random branch of `gen_key` (benchmark.c lines 183-187): each slot
draws `rand_next` on the running PRNG state and reduces it modulo `num`.
Returns the key list together with the final PRNG state. -/
def genKeyRand (s num : Nat) : Nat → List Nat × Nat
  | 0 => ([], s)
  | k + 1 =>
    let s' := rand_next s
    let r := genKeyRand s' num k
    ((s' % num) :: r.1, r.2)

/-- `gen_key` (benchmark.c lines 178-188): sequential order fills
`keys[i] = i` for `i < num`; random order fills `keys[i] = rand_next() % num`.
The PRNG state threads through; sequential order leaves it untouched. -/
def gen_key (s : Nat) (num : Nat) : Order → List Nat × Nat
  | Order.SEQUENTIAL => (List.range num, s)
  | Order.RANDOM => genKeyRand s num num

/-- The chunk loop of benchmark_write / benchmark_read / benchmark_delete
(benchmark.c lines 416, 498, 581):
`for (int n = total > MAXNUMPERTIME ? MAXNUMPERTIME : total; n > 0; n -= MAXNUMPERTIME)`.
Each iteration processes a chunk of `n` entries.  `MAXNUMPERTIME` is not
defined under src/; modelled from the spec as the maximum-keys-per-chunk
constant 500,000. -/
def chunkLoop (n : Int) : List Int :=
  if h : 0 < n then n :: chunkLoop (n - 500000) else []
termination_by n.toNat
decreasing_by omega

/-- Chunk sizes produced for a workload of `numEntries` total entries, with
the loop initializer `numEntries > MAXNUMPERTIME ? MAXNUMPERTIME : numEntries`
from the source. -/
def chunkSizes (numEntries : Int) : List Int :=
  chunkLoop (if 500000 < numEntries then 500000 else numEntries)

/-- Indices `i + j` touched by one inner batch group (benchmark.c lines
433-455, 512-530, 595-613): `for (j = 0; j < entries_per_batch; j++)`
accesses `keys[i+j]`. -/
def innerIdx (i epb : Nat) : List Nat :=
  (List.range epb).map (fun j => i + j)

/-- The outer batch loop `for (i = 0; i < n; i += entries_per_batch)`
(benchmark.c lines 433, 512, 595), fuelled: with `1 ≤ epb` the index `i`
advances by at least one per iteration while `i < n`, so fuel `n` covers
every iteration the C loop performs. -/
def outerIdx : Nat → Nat → Nat → Nat → List Nat
  | 0, _, _, _ => []
  | f + 1, i, n, epb =>
    if i < n then innerIdx i epb ++ outerIdx f (i + epb) n epb else []

/-- All key/value-array indices accessed while processing one chunk of size
`n` with batch parameter `epb`. -/
def accessedIdx (n epb : Nat) : List Nat := outerIdx n 0 n epb

/-- Events emitted inside one chunk of benchmark_write (benchmark.c lines
423-464): an optional BEGIN TRANSACTION step, one REPLACE execution per
accessed key index, and an optional END TRANSACTION step. -/
inductive WriteEv where
  | beginTx : WriteEv
  | replace (keyIdx : Nat) : WriteEv
  | endTx : WriteEv
deriving DecidableEq, Repr

/-- Trace of one write chunk of size `n` (benchmark.c lines 423-464): when
transactions are enabled a single BEGIN precedes the batch loops and a single
END follows them; every REPLACE of the chunk sits between the two. -/
def writeChunkEvents (tx : Bool) (n epb : Nat) : List WriteEv :=
  (if tx then [WriteEv.beginTx] else [])
    ++ (accessedIdx n epb).map WriteEv.replace
    ++ (if tx then [WriteEv.endTx] else [])

/-- Full trace of benchmark_write for `numEntries` total entries: the chunk
loop (benchmark.c line 416) runs `writeChunkEvents` once per chunk. -/
def writeEvents (tx : Bool) (numEntries : Int) (epb : Nat) : List WriteEv :=
  (chunkSizes numEntries).flatMap (fun n => writeChunkEvents tx n.toNat epb)

/-- Driver-level events of benchmark_run (benchmark.c lines 224-315): schema
creation, the unknown-name warning, calls into benchmark_write /
benchmark_read / benchmark_delete with their arguments, the WAL checkpoint,
and the summary line printed by `stop(name)`. -/
inductive RunEv where
  | createTable : RunEv
  | warning (name : String) : RunEv
  | write (sync : Bool) (order : Order) (numEntries valueSize : Int) (epb : Nat) : RunEv
  | read (order : Order) (epb : Nat) (readsUsed : Int) : RunEv
  | del (sync : Bool) (order : Order) (epb : Nat) : RunEv
  | walCkpt : RunEv
  | summary (name : String) : RunEv
deriving DecidableEq, Repr

/-- Resolved run configuration read by benchmark_run: `num_` (the resolved
entry count), `FLAGS_value_size`, `FLAGS_WAL_enabled`, `FLAGS_transaction`. -/
structure Flags where
  num : Int
  value_size : Int
  WAL_enabled : Bool
  transaction : Bool
deriving DecidableEq, Repr

/-- Mutable driver state across workload names: the read count `reads_`
(mutated and restored by the readrand100K branch) and whether the one-time
schema creation has already happened. -/
structure BenchState where
  reads : Int
  created : Bool
deriving DecidableEq, Repr

/-- The fresh-table write workloads.  Modelled from the spec (util.c, which
implements `if_create_database`, is absent from src/): spec 4.4 step 2, a
write workload that is not an overwrite requires the fresh table. -/
def freshTableName (name : String) : Bool :=
  name == "fillseq" || name == "fillseqsync" || name == "fillseqbatch" ||
  name == "fillrandom" || name == "fillrandsync" || name == "fillrandbatch" ||
  name == "fillrand100K" || name == "fillseq100K"

/-- Modelled from the spec: `if_create_database` lives in util.c, absent from
src/ (declared in bench.h line 112).  Spec 4.4 step 2: "issue a one-time
schema-creation statement before the first such workload". -/
def ifCreateDatabase (name : String) (created : Bool) : Bool :=
  freshTableName name && !created

/-- The `wal_checkpoint(db_)` helper (benchmark.c lines 56-63): checkpoints
only when `FLAGS_WAL_enabled` is set. -/
def walEvs (cfg : Flags) : List RunEv :=
  if cfg.WAL_enabled then [RunEv.walCkpt] else []

/-- The name-dispatch chain of benchmark_run (benchmark.c lines 253-310), in
source order.  Returns whether the name was recognized (`known`) and the
events of the branch taken.  The readrand100K branch saves `reads_`, divides
it by 1000 (C truncating division) for the nested benchmark_read call and
restores it afterwards, so its net effect on the driver state is nil and the
divided count appears only in the recorded read call. -/
def dispatch (cfg : Flags) (reads_ : Int) (name : String) : Bool × List RunEv :=
  if name = "fillseq" then
    (true, RunEv.write false Order.SEQUENTIAL cfg.num cfg.value_size 1 :: walEvs cfg)
  else if name = "fillseqbatch" then
    (true, RunEv.write false Order.SEQUENTIAL cfg.num cfg.value_size 1000 :: walEvs cfg)
  else if name = "fillrandom" then
    (true, RunEv.write false Order.RANDOM cfg.num cfg.value_size 1 :: walEvs cfg)
  else if name = "fillrandbatch" then
    (true, RunEv.write false Order.RANDOM cfg.num cfg.value_size 1000 :: walEvs cfg)
  else if name = "overwrite" then
    (true, RunEv.write false Order.RANDOM cfg.num cfg.value_size 1 :: walEvs cfg)
  else if name = "overwritesync" then
    (true, RunEv.write true Order.RANDOM cfg.num cfg.value_size 1 :: walEvs cfg)
  else if name = "overwritebatch" then
    (true, RunEv.write false Order.RANDOM cfg.num cfg.value_size 1000 :: walEvs cfg)
  else if name = "fillrandsync" then
    (true, RunEv.write true Order.RANDOM cfg.num cfg.value_size 1 :: walEvs cfg)
  else if name = "fillseqsync" then
    (true, RunEv.write true Order.SEQUENTIAL cfg.num cfg.value_size 1 :: walEvs cfg)
  else if name = "fillrand100K" then
    (true, RunEv.write false Order.RANDOM (Int.tdiv cfg.num 1000) 100000 1 :: walEvs cfg)
  else if name = "fillseq100K" then
    (true, RunEv.write false Order.SEQUENTIAL (Int.tdiv cfg.num 1000) 100000 1 :: walEvs cfg)
  else if name = "readseq" then
    (true, [RunEv.read Order.SEQUENTIAL 1 reads_])
  else if name = "readrandom" then
    (true, [RunEv.read Order.RANDOM 1 reads_])
  else if name = "readrand100K" then
    (true, [RunEv.read Order.RANDOM 1 (Int.tdiv reads_ 1000)])
  else if name = "delete" then
    (true, RunEv.del false Order.RANDOM 1 :: walEvs cfg)
  else if name = "deletesync" then
    (true, RunEv.del true Order.RANDOM 1 :: walEvs cfg)
  else
    (false, if name = "" then [] else [RunEv.warning name])

/-- The names recognized by the dispatch chain (benchmark.c lines 253-304). -/
def knownNames : List String :=
  ["fillseq", "fillseqbatch", "fillrandom", "fillrandbatch", "overwrite",
   "overwritesync", "overwritebatch", "fillrandsync", "fillseqsync",
   "fillrand100K", "fillseq100K", "readseq", "readrandom", "readrand100K",
   "delete", "deletesync"]

/-- Processing of one workload name by benchmark_run's loop body (benchmark.c
lines 240-313): optional one-time schema creation, the dispatch branch, and
the `stop(name)` summary line exactly when the name was recognized. -/
def runOne (cfg : Flags) (st : BenchState) (name : String) : List RunEv × BenchState :=
  let doCreate := ifCreateDatabase name st.created
  let d := dispatch cfg st.reads name
  ((if doCreate then [RunEv.createTable] else [])
     ++ d.2 ++ (if d.1 then [RunEv.summary name] else []),
   { st with created := st.created || doCreate })

/-- benchmark_run's pass over the comma-separated workload-name list, left to
right (benchmark.c lines 229-314). -/
def runList (cfg : Flags) : BenchState → List String → List RunEv × BenchState
  | st, [] => ([], st)
  | st, name :: rest =>
    let r := runOne cfg st name
    let r2 := runList cfg r.2 rest
    (r.1 ++ r2.1, r2.2)

/-- The configuration resolution performed by benchmark_init (benchmark.c
lines 196-202): `num_ = FLAGS_num`, `reads_ = FLAGS_reads < 0 ? FLAGS_num :
FLAGS_reads`, and `rand_init(&rand_, time(0))` — the wall-clock start time
`t` is an input of the model. -/
structure InitResult where
  num : Int
  reads : Int
  seed : Nat
deriving DecidableEq, Repr

/-- benchmark_init's resolution of the entry count, read count and PRNG
seed (benchmark.c lines 196-202), with the `time(0)` call modelled as the
parameter `t`. -/
def benchmark_init (FLAGS_num FLAGS_reads : Int) (t : Nat) : InitResult :=
  { num := FLAGS_num,
    reads := if FLAGS_reads < 0 then FLAGS_num else FLAGS_reads,
    seed := rand_init t }

/-- The result-message composition of `stop` (benchmark.c lines 143-155).
When bytes were recorded the code builds a throughput string `rate` (its
numeric formatting is floating point and abstracted here as an input) and
then tests `!strcmp(message_, "")`, which is true exactly when the current
message is EMPTY: in that branch it appends the (empty) message to the rate,
and otherwise it overwrites the message with the bare rate string. -/
def stopMessage (bytes : Int) (rate msg : String) : String :=
  if 0 < bytes then
    if msg = "" then rate ++ " " ++ msg else rate
  else msg

/-- The value generator (struct RandomGenerator, bench.h lines 28-32): the
pre-materialized pool `data_` and the cursor `pos_`. -/
structure RandomGenerator where
  data_ : List Nat
  pos_ : Nat
deriving DecidableEq, Repr

/-- Modelled from the spec: `rand_gen_generate` lives in random.c, absent
from src/ (declared in bench.h line 106).  Spec 4.2: "generate(len) returns a
read-only view of len contiguous bytes starting at the current cursor into
the pool, advancing the cursor by len (wrapping to offset 0 if the next
request would exceed the pool), with len constrained to be smaller than the
pool size". -/
def rand_gen_generate (g : RandomGenerator) (len : Nat) : RandomGenerator × List Nat :=
  let p := if g.data_.length < g.pos_ + len then 0 else g.pos_
  (⟨g.data_, p + len⟩, (g.data_.drop p).take len)

/-! ## Helper lemmas -/

lemma chunkLoop_pos {n : Int} (h : 0 < n) : chunkLoop n = n :: chunkLoop (n - 500000) := by
  rw [chunkLoop]; simp [h]

lemma chunkLoop_nonpos {n : Int} (h : ¬ 0 < n) : chunkLoop n = [] := by
  rw [chunkLoop]; simp [h]

lemma chunkSizes_1200000 : chunkSizes 1200000 = [500000] := by
  unfold chunkSizes
  rw [if_pos (by norm_num), chunkLoop_pos (by norm_num)]
  norm_num [chunkLoop_nonpos]

lemma chunkSizes_2000 : chunkSizes 2000 = [2000] := by
  unfold chunkSizes
  rw [if_neg (by norm_num), chunkLoop_pos (by norm_num)]
  norm_num [chunkLoop_nonpos]

/-! ## Claim theorems -/

/-- C1: the claim says a workload of 1,200,000 entries is processed in three
chunks of 500,000 / 500,000 / 200,000 covering the whole entry count.  The
chunk loop in the code initializes its counter to `min(total, 500000)` and
then subtracts 500,000 per iteration, so it executes exactly one chunk of
500,000 entries and never touches the remaining 700,000: the code evaluates
to a single chunk at the claimed input. -/
theorem C1_chunking_code_eval :
    chunkSizes 1200000 = [500000] ∧
    (chunkSizes 1200000).sum = 500000 ∧
    chunkSizes 1200000 ≠ [500000, 500000, 200000] := by
  refine ⟨chunkSizes_1200000, ?_, ?_⟩
  · rw [chunkSizes_1200000]; rfl
  · rw [chunkSizes_1200000]; simp

/-- C6: the claim says entry count and read count are non-negative after
resolution for every combination of the `--num` and `--reads` flag values.
`main` accepts any integer for `--num` (sscanf `%d`), and benchmark_init
copies it unchecked, so `--num=-5 --reads=-1` resolves both counts to -5. -/
theorem C6_counterexample :
    (benchmark_init (-5) (-1) 0).num < 0 ∧ (benchmark_init (-5) (-1) 0).reads < 0 := by
  decide

/-- C6 (amended): whenever the configured entry count is non-negative, the
resolved entry count and read count are non-negative, and a negative
configured read count resolves to the entry count (a non-negative one is kept
as is). -/
theorem C6_resolution_nonneg (fn fr : Int) (t : Nat) (h : 0 ≤ fn) :
    0 ≤ (benchmark_init fn fr t).num ∧
    0 ≤ (benchmark_init fn fr t).reads ∧
    (fr < 0 → (benchmark_init fn fr t).reads = fn) ∧
    (0 ≤ fr → (benchmark_init fn fr t).reads = fr) := by
  simp only [benchmark_init]
  refine ⟨h, ?_, fun hfr => if_pos hfr, fun hfr => if_neg (by omega)⟩
  split <;> omega

/-- Witness for C6_resolution_nonneg at (--num=1000000, --reads=-1). -/
theorem C6_resolution_nonneg_witness :
    (0 : Int) ≤ 1000000 ∧
    (0 ≤ (benchmark_init 1000000 (-1) 7).num ∧
     0 ≤ (benchmark_init 1000000 (-1) 7).reads ∧
     ((-1 : Int) < 0 → (benchmark_init 1000000 (-1) 7).reads = 1000000) ∧
     ((0 : Int) ≤ -1 → (benchmark_init 1000000 (-1) 7).reads = -1)) :=
  ⟨by decide, C6_resolution_nonneg 1000000 (-1) 7 (by decide)⟩

/-- C7: the claim says that when bytes were recorded and an
operation-specific message had been set, the throughput string is prepended
to that message, preserving it.  The code tests `!strcmp(message_, "")`,
which is true exactly when the message is empty, so a non-empty message is
overwritten with the bare rate string (and the pointless space-plus-append
happens only for the empty message): the pre-existing text "(500 ops)" is
lost. -/
theorem C7_stop_message_code_eval :
    stopMessage 1 "  1.0 MB/s" "(500 ops)" = "  1.0 MB/s" ∧
    stopMessage 1 "  1.0 MB/s" "(500 ops)" ≠ "  1.0 MB/s" ++ " " ++ "(500 ops)" ∧
    stopMessage 1 "  1.0 MB/s" "" = "  1.0 MB/s" ++ " " ++ "" ∧
    stopMessage 0 "  1.0 MB/s" "(500 ops)" = "(500 ops)" := by
  refine ⟨rfl, by decide, rfl, rfl⟩

/-- C8: for `len` smaller than the pool size, `generate(len)` returns exactly
`len` contiguous bytes of the pool taken at the (possibly wrapped) cursor,
advances the cursor by `len`, the read stays inside the pool bounds, the
cursor wraps to offset 0 exactly when the request would exceed the pool, and
the pool itself is untouched. -/
theorem C8_generate_in_bounds (g : RandomGenerator) (len : Nat)
    (h : len < g.data_.length) :
    (rand_gen_generate g len).2 =
      (g.data_.drop (if g.data_.length < g.pos_ + len then 0 else g.pos_)).take len ∧
    (rand_gen_generate g len).2.length = len ∧
    (rand_gen_generate g len).1.pos_ =
      (if g.data_.length < g.pos_ + len then 0 else g.pos_) + len ∧
    (if g.data_.length < g.pos_ + len then 0 else g.pos_) + len ≤ g.data_.length ∧
    (rand_gen_generate g len).1.data_ = g.data_ := by
  refine ⟨rfl, ?_, rfl, ?_, rfl⟩
  · simp only [rand_gen_generate, List.length_take, List.length_drop]
    split <;> omega
  · split <;> omega

/-- Witness for C8_generate_in_bounds on the pool [10, 20, 30] with the
cursor at 2 and a request of 2 bytes (the wrapping case). -/
theorem C8_generate_in_bounds_witness :
    2 < (RandomGenerator.mk [10, 20, 30] 2).data_.length ∧
    ((rand_gen_generate (RandomGenerator.mk [10, 20, 30] 2) 2).2 =
      ((RandomGenerator.mk [10, 20, 30] 2).data_.drop
        (if (RandomGenerator.mk [10, 20, 30] 2).data_.length <
            (RandomGenerator.mk [10, 20, 30] 2).pos_ + 2 then 0
         else (RandomGenerator.mk [10, 20, 30] 2).pos_)).take 2 ∧
    (rand_gen_generate (RandomGenerator.mk [10, 20, 30] 2) 2).2.length = 2 ∧
    (rand_gen_generate (RandomGenerator.mk [10, 20, 30] 2) 2).1.pos_ =
      (if (RandomGenerator.mk [10, 20, 30] 2).data_.length <
          (RandomGenerator.mk [10, 20, 30] 2).pos_ + 2 then 0
       else (RandomGenerator.mk [10, 20, 30] 2).pos_) + 2 ∧
    (if (RandomGenerator.mk [10, 20, 30] 2).data_.length <
        (RandomGenerator.mk [10, 20, 30] 2).pos_ + 2 then 0
     else (RandomGenerator.mk [10, 20, 30] 2).pos_) + 2 ≤
      (RandomGenerator.mk [10, 20, 30] 2).data_.length ∧
    (rand_gen_generate (RandomGenerator.mk [10, 20, 30] 2) 2).1.data_ =
      (RandomGenerator.mk [10, 20, 30] 2).data_) :=
  ⟨by decide, C8_generate_in_bounds (RandomGenerator.mk [10, 20, 30] 2) 2 (by decide)⟩

lemma rand_iter_shift (s : Nat) : ∀ k, rand_iter (rand_next s) k = rand_iter s (k + 1)
  | 0 => rfl
  | k + 1 => by simp only [rand_iter, rand_iter_shift s k]

lemma genKeyRand_eq (num : Nat) :
    ∀ (k s : Nat), genKeyRand s num k =
      ((List.range k).map (fun i => rand_iter s (i + 1) % num), rand_iter s k) := by
  intro k
  induction k with
  | zero => intro s; rfl
  | succ k ih =>
    intro s
    simp only [genKeyRand, ih (rand_next s), List.range_succ_eq_map,
      List.map_cons, List.map_map, rand_iter_shift]
    simp [Function.comp_def, rand_iter]

/-- C3: the key generator in sequential order returns exactly the keys
`0, 1, ..., count-1` in order; in random order it returns `count` draws, the
`i`-th equal to the `(i+1)`-st PRNG output reduced modulo `count`, so every
draw lies in `[0, count)`; duplicates are possible (seed 1 with count 2
yields `[1, 1]`). -/
theorem C3_gen_key_orders (s num : Nat) :
    (gen_key s num Order.SEQUENTIAL).1 = List.range num ∧
    (gen_key s num Order.RANDOM).1 =
      (List.range num).map (fun i => rand_iter s (i + 1) % num) ∧
    (∀ x ∈ (gen_key s num Order.RANDOM).1, x < num) ∧
    (gen_key 1 2 Order.RANDOM).1 = [1, 1] := by
  refine ⟨rfl, ?_, ?_, by decide⟩
  · simp [gen_key, genKeyRand_eq]
  · intro x hx
    simp only [gen_key, genKeyRand_eq, List.mem_map, List.mem_range] at hx
    obtain ⟨i, hi, rfl⟩ := hx
    exact Nat.mod_lt _ (by omega)

lemma runOne_reads (cfg : Flags) (st : BenchState) (name : String) :
    ((runOne cfg st name).2).reads = st.reads := rfl

lemma runList_reads (cfg : Flags) :
    ∀ (names : List String) (st : BenchState),
      ((runList cfg st names).2).reads = st.reads
  | [], _ => rfl
  | _ :: rest, st => by
    simp only [runList]
    rw [runList_reads cfg rest]
    exact runOne_reads ..

/-- C4: the readrand100K branch records a read call that uses the current
read count divided by 1000 (C truncating division) and leaves the driver
state unchanged, so every later workload in the run observes the original
read count: no branch of the driver ever changes the stored read count
(readrand100K saves and restores it), at the single-name level and along any
name list.  With `reads_ = 100000` the inner read count is 100. -/
theorem C4_readrand100K_restores (cfg : Flags) (st : BenchState) :
    runOne cfg st "readrand100K" =
      ([RunEv.read Order.RANDOM 1 (Int.tdiv st.reads 1000),
        RunEv.summary "readrand100K"], st) ∧
    (runOne cfg { st with reads := 100000 } "readrand100K").1 =
      [RunEv.read Order.RANDOM 1 100, RunEv.summary "readrand100K"] ∧
    (∀ name, ((runOne cfg st name).2).reads = st.reads) ∧
    (∀ (names : List String) (st2 : BenchState),
      ((runList cfg st2 names).2).reads = st2.reads) := by
  have h1 : ∀ st' : BenchState, runOne cfg st' "readrand100K" =
      ([RunEv.read Order.RANDOM 1 (Int.tdiv st'.reads 1000),
        RunEv.summary "readrand100K"], st') := by
    intro st'
    simp [runOne, dispatch, ifCreateDatabase, freshTableName]
  refine ⟨h1 st, ?_, fun name => runOne_reads cfg st name, runList_reads cfg⟩
  rw [h1]
  norm_num
  decide

/-- C5: a non-empty workload name that matches none of the sixteen
recognized names produces exactly one warning event: no schema creation, no
write/read/delete call, no WAL checkpoint and no summary line, the driver
state is untouched, and the remaining names of the list are still
processed. -/
theorem C5_unknown_name_skipped (cfg : Flags) (st : BenchState) (name : String)
    (h1 : name ∉ knownNames) (h2 : name ≠ "") :
    runOne cfg st name = ([RunEv.warning name], st) ∧
    ∀ rest, runList cfg st (name :: rest) =
      (RunEv.warning name :: (runList cfg st rest).1, (runList cfg st rest).2) := by
  simp only [knownNames, List.mem_cons, List.not_mem_nil, or_false] at h1
  push_neg at h1
  obtain ⟨e1, e2, e3, e4, e5, e6, e7, e8, e9, e10, e11, e12, e13, e14, e15, e16⟩ := h1
  have hf : freshTableName name = false := by
    simp only [freshTableName, Bool.or_eq_false_iff, beq_eq_false_iff_ne, ne_eq]
    exact ⟨⟨⟨⟨⟨⟨⟨e1, e9⟩, e2⟩, e3⟩, e8⟩, e4⟩, e10⟩, e11⟩
  have hro : runOne cfg st name = ([RunEv.warning name], st) := by
    simp only [runOne, dispatch, ifCreateDatabase, hf, Bool.false_and,
      Bool.or_false, if_neg e1, if_neg e2, if_neg e3, if_neg e4, if_neg e5,
      if_neg e6, if_neg e7, if_neg e8, if_neg e9, if_neg e10, if_neg e11,
      if_neg e12, if_neg e13, if_neg e14, if_neg e15, if_neg e16, if_neg h2]
    simp
  refine ⟨hro, fun rest => ?_⟩
  simp only [runList, hro, List.singleton_append]

/-- Witness for C5_unknown_name_skipped at the spec's example name
"bogus". -/
theorem C5_unknown_name_skipped_witness :
    ("bogus" ∉ knownNames ∧ "bogus" ≠ "") ∧
    runOne ⟨1000000, 128, true, true⟩ ⟨1000000, false⟩ "bogus" =
      ([RunEv.warning "bogus"], ⟨1000000, false⟩) :=
  ⟨⟨by decide, by decide⟩,
   (C5_unknown_name_skipped ⟨1000000, 128, true, true⟩ ⟨1000000, false⟩ "bogus"
     (by decide) (by decide)).1⟩

lemma count_beginTx_chunk (n epb : Nat) :
    (writeChunkEvents true n epb).count WriteEv.beginTx = 1 := by
  have hm : WriteEv.beginTx ∉ (accessedIdx n epb).map WriteEv.replace := by
    simp [List.mem_map]
  simp [writeChunkEvents, List.count_append, List.count_eq_zero.2 hm]

lemma count_endTx_chunk (n epb : Nat) :
    (writeChunkEvents true n epb).count WriteEv.endTx = 1 := by
  have hm : WriteEv.endTx ∉ (accessedIdx n epb).map WriteEv.replace := by
    simp [List.mem_map]
  simp [writeChunkEvents, List.count_append, List.count_eq_zero.2 hm]

lemma count_flatMap_chunks (epb : Nat) (e : WriteEv)
    (h : ∀ n, (writeChunkEvents true n epb).count e = 1) :
    ∀ l : List Int,
      ((l.flatMap (fun n => writeChunkEvents true n.toNat epb)).count e) = l.length
  | [] => rfl
  | n :: rest => by
    simp only [List.flatMap_cons, List.count_append, List.length_cons, h,
      count_flatMap_chunks epb e h rest]
    omega

/-- C2 (amended): the three batch workloads pass entries_per_batch = 1000 to
benchmark_write with write_sync = false — the same durability setting the
non-batch fillseq / fillrandom / overwrite pass — but with transactions
enabled each chunk is enclosed in exactly one BEGIN/END TRANSACTION pair
wrapping all of the chunk's REPLACE executions, not one pair per group of
1000 entries. -/
theorem C2_batch_single_transaction :
    (∀ (cfg : Flags) (reads_ : Int),
      dispatch cfg reads_ "fillseqbatch" =
        (true, RunEv.write false Order.SEQUENTIAL cfg.num cfg.value_size 1000 :: walEvs cfg) ∧
      dispatch cfg reads_ "fillrandbatch" =
        (true, RunEv.write false Order.RANDOM cfg.num cfg.value_size 1000 :: walEvs cfg) ∧
      dispatch cfg reads_ "overwritebatch" =
        (true, RunEv.write false Order.RANDOM cfg.num cfg.value_size 1000 :: walEvs cfg) ∧
      dispatch cfg reads_ "fillseq" =
        (true, RunEv.write false Order.SEQUENTIAL cfg.num cfg.value_size 1 :: walEvs cfg) ∧
      dispatch cfg reads_ "fillrandom" =
        (true, RunEv.write false Order.RANDOM cfg.num cfg.value_size 1 :: walEvs cfg) ∧
      dispatch cfg reads_ "overwrite" =
        (true, RunEv.write false Order.RANDOM cfg.num cfg.value_size 1 :: walEvs cfg)) ∧
    (∀ (numEntries : Int) (epb : Nat),
      (writeEvents true numEntries epb).count WriteEv.beginTx = (chunkSizes numEntries).length ∧
      (writeEvents true numEntries epb).count WriteEv.endTx = (chunkSizes numEntries).length) := by
  constructor
  · intro cfg reads_
    refine ⟨?_, ?_, ?_, ?_, ?_, ?_⟩ <;> simp [dispatch]
  · intro numEntries epb
    exact ⟨count_flatMap_chunks epb WriteEv.beginTx (fun n => count_beginTx_chunk n epb) _,
           count_flatMap_chunks epb WriteEv.endTx (fun n => count_endTx_chunk n epb) _⟩

/-- C2: the claim says each group of 1000 REPLACE executions is enclosed in
its own BEGIN/END pair, which for a 2000-entry batch-workload chunk would
mean two BEGIN TRANSACTION steps; the code's trace for 2000 entries at
entries_per_batch = 1000 with transactions enabled contains exactly one. -/
theorem C2_counterexample :
    (writeEvents true 2000 1000).count WriteEv.beginTx = 1 ∧
    (writeEvents true 2000 1000).count WriteEv.beginTx ≠ 2 := by
  have h : (writeEvents true 2000 1000).count WriteEv.beginTx = 1 := by
    unfold writeEvents
    rw [chunkSizes_2000]
    simpa using count_beginTx_chunk 2000 1000
  exact ⟨h, by omega⟩

lemma mem_outerIdx (epb : Nat) (hepb : 1 ≤ epb) :
    ∀ (f i n a : Nat), n ≤ i + f →
      (a ∈ outerIdx f i n epb ↔
        ∃ k j, j < epb ∧ i + k * epb < n ∧ a = i + k * epb + j) := by
  intro f
  induction f with
  | zero =>
    intro i n a hn
    simp only [outerIdx, List.not_mem_nil, false_iff, not_exists]
    rintro k j ⟨hj, hk, ha⟩
    generalize k * epb = K at hk
    omega
  | succ f ih =>
    intro i n a hn
    simp only [outerIdx]
    by_cases hin : i < n
    · rw [if_pos hin, List.mem_append, ih (i + epb) n a (by omega)]
      constructor
      · rintro (hmem | ⟨k, j, hj, hk, ha⟩)
        · simp only [innerIdx, List.mem_map, List.mem_range] at hmem
          obtain ⟨j, hj, ha⟩ := hmem
          refine ⟨0, j, hj, by simpa using hin, by omega⟩
        · refine ⟨k + 1, j, hj, ?_, ?_⟩ <;>
          · have hsm : (k + 1) * epb = k * epb + epb := Nat.succ_mul k epb
            generalize k * epb = K at hk ha hsm
            omega
      · rintro ⟨k, j, hj, hk, ha⟩
        cases k with
        | zero =>
          left
          simp only [Nat.zero_mul, Nat.add_zero] at hk ha
          simp only [innerIdx, List.mem_map, List.mem_range]
          exact ⟨j, hj, by omega⟩
        | succ k =>
          right
          refine ⟨k, j, hj, ?_, ?_⟩ <;>
          · have hsm : (k + 1) * epb = k * epb + epb := Nat.succ_mul k epb
            generalize k * epb = K at hk ha hsm
            omega
    · rw [if_neg hin]
      simp only [List.not_mem_nil, false_iff, not_exists]
      rintro k j ⟨hj, hk, ha⟩
      generalize k * epb = K at hk
      omega

lemma mem_accessedIdx {n epb a : Nat} (hepb : 1 ≤ epb) :
    a ∈ accessedIdx n epb ↔ ∃ k j, j < epb ∧ k * epb < n ∧ a = k * epb + j := by
  unfold accessedIdx
  rw [mem_outerIdx epb hepb n 0 n a (by omega)]
  simp

/-- C9: in a chunk of size `n`, every key/value index `i+j` touched by the
two nested batch loops lies in `[0, n)` exactly when entries_per_batch
divides `n`; in particular a batch workload (entries_per_batch = 1000) whose
chunk size is not a multiple of 1000 accesses some index at or beyond `n`,
outside the generated arrays. -/
theorem C9_batch_index_bounds :
    (∀ n epb, 1 ≤ epb →
      ((∀ a ∈ accessedIdx n epb, a < n) ↔ epb ∣ n)) ∧
    (∀ n, ¬ (1000 : Nat) ∣ n → ∃ a ∈ accessedIdx n 1000, n ≤ a) := by
  have main : ∀ n epb, 1 ≤ epb → ((∀ a ∈ accessedIdx n epb, a < n) ↔ epb ∣ n) := by
    intro n epb hepb
    constructor
    · intro hbound
      rcases Nat.eq_zero_or_pos n with h0 | hpos
      · simp [h0]
      · have hdm : epb * ((n - 1) / epb) + (n - 1) % epb = n - 1 :=
          Nat.div_add_mod (n - 1) epb
        have hml : (n - 1) % epb < epb := Nat.mod_lt _ (by omega)
        have hcm : (n - 1) / epb * epb = epb * ((n - 1) / epb) :=
          Nat.mul_comm _ _
        have hmem : ((n - 1) / epb * epb + (epb - 1)) ∈ accessedIdx n epb := by
          rw [mem_accessedIdx hepb]
          exact ⟨(n - 1) / epb, epb - 1, by omega, by omega, rfl⟩
        have hlt := hbound _ hmem
        refine ⟨(n - 1) / epb + 1, ?_⟩
        have hsm : epb * ((n - 1) / epb + 1) = epb * ((n - 1) / epb) + epb := by
          ring
        omega
    · rintro ⟨m, rfl⟩ a ha
      rw [mem_accessedIdx hepb] at ha
      obtain ⟨k, j, hj, hk, rfl⟩ := ha
      have hcm : epb * m = m * epb := Nat.mul_comm epb m
      have hkm : k < m := by
        by_contra hc
        push_neg at hc
        have hmm : m * epb ≤ k * epb := mul_le_mul_right' hc epb
        omega
      have hk1 : (k + 1) * epb ≤ m * epb := mul_le_mul_right' (by omega) epb
      have hsm : (k + 1) * epb = k * epb + epb := Nat.succ_mul k epb
      omega
  refine ⟨main, fun n hnd => ?_⟩
  have h2 : ¬ ∀ a ∈ accessedIdx n 1000, a < n := fun hall =>
    hnd ((main n 1000 (by omega)).1 hall)
  push_neg at h2
  obtain ⟨a, ha, hna⟩ := h2
  exact ⟨a, ha, by omega⟩

/-- Witness for C9_batch_index_bounds: chunk size 4 with batch 2 stays in
bounds (2 divides 4); chunk size 500 with batch 1000 reaches an index ≥ 500. -/
theorem C9_batch_index_bounds_witness :
    (1 ≤ 2 ∧ ((∀ a ∈ accessedIdx 4 2, a < 4) ↔ 2 ∣ 4)) ∧
    (¬ (1000 : Nat) ∣ 500 ∧ ∃ a ∈ accessedIdx 500 1000, 500 ≤ a) :=
  ⟨⟨by decide, C9_batch_index_bounds.1 4 2 (by decide)⟩,
   ⟨by decide, C9_batch_index_bounds.2 500 (by decide)⟩⟩

lemma rand_init_range (t : Nat) : 1 ≤ rand_init t ∧ rand_init t < 2147483647 := by
  have hm : t % 2147483648 < 2147483648 := Nat.mod_lt _ (by norm_num)
  unfold rand_init
  dsimp only
  split_ifs with h
  · omega
  · push_neg at h
    omega

lemma rand_next_inj {s1 s2 : Nat} (h1 : s1 < 2147483647) (h2 : s2 < 2147483647)
    (h : rand_next s1 = rand_next s2) : s1 = s2 := by
  unfold rand_next at h
  have hco : Nat.gcd 2147483647 16807 = 1 := by norm_num
  have hmod : s1 * 16807 ≡ s2 * 16807 [MOD 2147483647] := h
  have hcan : s1 ≡ s2 [MOD 2147483647] :=
    Nat.ModEq.cancel_right_of_coprime hco hmod
  have e1 : s1 % 2147483647 = s1 := Nat.mod_eq_of_lt h1
  have e2 : s2 % 2147483647 = s2 := Nat.mod_eq_of_lt h2
  unfold Nat.ModEq at hcan
  omega

/-- C10 (amended): benchmark_init seeds the PRNG from the wall-clock start
time; when two start times normalize to different seeds the PRNG steps to
different values (the Lehmer step is injective on the normalized seed range),
so the randomized key order is a function of the start time and bit-for-bit
reproducibility holds only within a single run — but distinct start times do
not guarantee distinct seeds or distinct key sequences. -/
theorem C10_seed_time_dependence (fn fr : Int) (t1 t2 : Nat)
    (h : (benchmark_init fn fr t1).seed ≠ (benchmark_init fn fr t2).seed) :
    rand_next ((benchmark_init fn fr t1).seed) ≠
      rand_next ((benchmark_init fn fr t2).seed) := by
  intro he
  apply h
  simp only [benchmark_init] at he ⊢
  exact rand_next_inj (rand_init_range t1).2 (rand_init_range t2).2 he

/-- Witness for C10_seed_time_dependence at start times 1 and 2. -/
theorem C10_seed_time_dependence_witness :
    (benchmark_init 1000000 (-1) 1).seed ≠ (benchmark_init 1000000 (-1) 2).seed ∧
    rand_next ((benchmark_init 1000000 (-1) 1).seed) ≠
      rand_next ((benchmark_init 1000000 (-1) 2).seed) :=
  ⟨by decide, C10_seed_time_dependence 1000000 (-1) 1 2 (by decide)⟩

/-- C10: the claim says two runs with identical configuration started at
different times produce different random-order key sequences.  Seed
normalization masks the time to 31 bits, so start times 17 and 17 + 2^31
yield the same PRNG seed and bit-for-bit identical random key sequences. -/
theorem C10_counterexample :
    (17 : Nat) ≠ 2147483665 ∧
    (benchmark_init 1000000 (-1) 17).seed =
      (benchmark_init 1000000 (-1) 2147483665).seed ∧
    (gen_key ((benchmark_init 1000000 (-1) 17).seed) 5 Order.RANDOM).1 =
      (gen_key ((benchmark_init 1000000 (-1) 2147483665).seed) 5 Order.RANDOM).1 := by
  decide

/-- Witness for C3_gen_key_orders: seed 1 with count 2 yields [1, 1], so 1
is a member and the membership bound applies to it. -/
theorem C3_gen_key_orders_witness :
    1 ∈ (gen_key 1 2 Order.RANDOM).1 ∧ 1 < 2 :=
  ⟨by decide, (C3_gen_key_orders 1 2).2.2.1 1 (by decide)⟩
